import Mathlib

set_option maxRecDepth 100000

/- Shallow embedding of src/main.go, a single-user in-memory spreadsheet.

   Go strings are modelled as Lean strings over their characters (all inputs of
   interest are ASCII, where Go byte indexing agrees with character indexing,
   and the byte arithmetic of `cellId[0]-'A'` is arithmetic modulo 256).
   Go runtime panics (out-of-range slice indexing, slicing an empty string)
   are modelled by the `none` / `panic` constructors of the result types.
   The iteration order of a Go map is unspecified; `dependentCells` is
   modelled as an insertion-ordered list of the map's keys, and every claim
   below is settled at states where at most one dependent is iterated or where
   the conclusion is insensitive to that order. -/

/-- Mirror of the Go struct `Cell`: the dependents map (modelled as an
insertion-ordered list of its keys), the stored integer value, and the
optional formula text. -/
structure Cell where
  dependentCells : List String
  value : Int
  formula : Option String
deriving Repr, DecidableEq

/-- Mirror of the Go struct `SpreadSheet`: a matrix of cells. -/
structure SpreadSheet where
  cells : List (List Cell)
deriving Repr, DecidableEq

/-- Mirror of the Go struct `CellId`: row, column, sign ("+" or "-"), and an
optional literal value (set exactly when the token was an integer literal;
the coordinates then stay at their zero values (0,0)). -/
structure CellId where
  row : Int
  col : Int
  sign : String
  val : Option Int
deriving Repr, DecidableEq

/-- Result of a Go function returning `(α, error)`: a value, a returned
`error`, or a runtime panic. -/
inductive GoRes (α : Type) where
  | panic : GoRes α
  | err : String → GoRes α
  | ok : α → GoRes α
deriving Repr, DecidableEq

/-- Result of `SetCellValue`: success with the updated sheet, a returned Go
`error` together with the sheet at that point (the code only errors before
any mutation), or a runtime panic. -/
inductive SetRes where
  | panic : SetRes
  | err : String → SpreadSheet → SetRes
  | ok : SpreadSheet → SetRes
deriving Repr, DecidableEq

/-- The digit-run part of Go `strconv.Atoi`: at least one character, all
decimal digits, read as a base-10 number. -/
def go_atoi_digits (l : List Char) : Option Int :=
  if l = [] then none
  else if l.all Char.isDigit then
    some (l.foldl (fun a ch => a * 10 + ((ch.toNat : Int) - 48)) 0)
  else none

/-- Go `strconv.Atoi`: an optional sign followed by at least one digit and
nothing else; `none` models the returned error. -/
def go_atoi (s : String) : Option Int :=
  match s.data with
  | [] => none
  | c :: rest =>
    if c = '-' then (go_atoi_digits rest).map (fun v => -v)
    else if c = '+' then go_atoi_digits rest
    else go_atoi_digits (c :: rest)

/-- Go `getCellRowCol`.  `cellId[0]-'A'` is byte arithmetic, modelled modulo
256; the error paths return `(-1, -1)` exactly as the Go code does (some
callers ignore the error and keep using those coordinates).  `none` models the
panic of indexing `cellId[0]` on an empty string. -/
def getCellRowCol (cellId : String) : Option (Int × Int × Option String) :=
  match cellId.data with
  | [] => none
  | c :: rest =>
    let col : Nat := (c.toNat + 191) % 256
    if col ≥ 26 then some (-1, -1, some "Invalid col number in cellId")
    else
      match go_atoi (String.mk rest) with
      | none => some (-1, -1, some "Invalid row number in cellId")
      | some row => some (row - 1, (col : Int), none)

/-- Go slice indexing: a negative or too-large index panics (`none`). -/
def idx {α : Type} (l : List α) (i : Int) : Option α :=
  if i < 0 then none else l.get? i.toNat

/-- In-place update of the element at a (valid) position; identity when the
position is absent. -/
def listModify {α : Type} : List α → Nat → (α → α) → List α
  | [], _, _ => []
  | x :: xs, 0, f => f x :: xs
  | x :: xs, n+1, f => x :: listModify xs n f

/-- Read `sheet.cells[row][col]`; `none` models the indexing panic. -/
def cellAt (sheet : SpreadSheet) (row col : Int) : Option Cell :=
  (idx sheet.cells row).bind (fun r => idx r col)

/-- Write to `sheet.cells[row][col]`.  In the Go code every such write is
preceded by a successful read of the same location, so the out-of-range case
(where this is the identity) never occurs on a non-panicking path. -/
def modifyCell (sheet : SpreadSheet) (row col : Int) (f : Cell → Cell) : SpreadSheet :=
  if row < 0 || col < 0 then sheet
  else SpreadSheet.mk (listModify sheet.cells row.toNat (fun r => listModify r col.toNat f))

/-- Go `strings.Split(s, ":")` at the character level. -/
def splitOnColon : List Char → List (List Char)
  | [] => [[]]
  | c :: rest =>
    if c = ':' then [] :: splitOnColon rest
    else
      match splitOnColon rest with
      | [] => [[c]]
      | h :: t => (c :: h) :: t

/-- The inclusive integer range `[lo..hi]` traversed by the Go for-loops. -/
def intRange (lo hi : Int) : List Int :=
  (List.range (hi + 1 - lo).toNat).map (fun i => lo + (i : Int))

/-- Go `getCellIdsFromRange`: a single token (integer literal or cell id) or a
`:`-range expanded row-major over the inclusive rectangle.  Resolution errors
of `getCellRowCol` are discarded and the `(-1,-1)` coordinates kept, exactly
as in the Go code; `none` models a panic (empty token or endpoint). -/
def getCellIdsFromRange (rangeStr sign : String) : Option (List CellId) :=
  if !(rangeStr.data.contains ':') then
    match go_atoi rangeStr with
    | some v => some [CellId.mk 0 0 sign (some v)]
    | none =>
      match getCellRowCol rangeStr with
      | none => none
      | some (row, col, _) => some [CellId.mk row col sign none]
  else
    match splitOnColon rangeStr.data with
    | s1 :: s2 :: _ =>
      match getCellRowCol (String.mk s1), getCellRowCol (String.mk s2) with
      | some (topRow, leftCol, _), some (bottomRow, rightCol, _) =>
        some ((intRange topRow bottomRow).flatMap (fun r =>
          (intRange leftCol rightCol).map (fun c => CellId.mk r c sign none)))
      | _, _ => none
    | _ => none

/-- The token scan of Go `getCellIdsFromFormula`: split on every `+`/`-`,
remembering the sign in front of each token (the first token gets "+"). -/
def tokenize : List Char → List Char → String → List (List Char × String)
  | [], cur, sign => [(cur, sign)]
  | c :: rest, cur, sign =>
    if c = '+' || c = '-' then
      (cur, sign) :: tokenize rest [] (String.mk [c])
    else
      tokenize rest (cur ++ [c]) sign

/-- Go `getCellIdsFromFormula`: strip the leading character (`formula[1:]`,
which panics on an empty string) and concatenate the cell ids of every signed
token in order. -/
def getCellIdsFromFormula (formula : String) : Option (List CellId) :=
  match formula.data with
  | [] => none
  | _ :: rest =>
    (tokenize rest [] "+").foldlM
      (fun acc tp => (getCellIdsFromRange (String.mk tp.1) tp.2).map (fun l => acc ++ l)) []

/-- Set-insertion into the dependents map: the Go map assignment `m[k] = true`. -/
def insertKey (l : List String) (k : String) : List String :=
  if l.contains k then l else l ++ [k]

/-- Go `deleteDependees`: remove `cellId` from the dependents map of every
cell mentioned by `formula` (including, for literal terms, the cell at the
zero-value coordinates (0,0)); reading an out-of-range cell panics (`none`). -/
def deleteDependees (sheet : SpreadSheet) (cellId formula : String) : Option SpreadSheet :=
  (getCellIdsFromFormula formula).bind (fun ids =>
    ids.foldlM (fun sh i =>
      (cellAt sh i.row i.col).map (fun _ =>
        modifyCell sh i.row i.col (fun c =>
          Cell.mk (c.dependentCells.filter (fun k => k != cellId)) c.value c.formula))) sheet)

/-- Go `addDependees`: add `cellId` to the dependents map of every cell
mentioned by `formula` (again including, for literal terms, the cell at
(0,0)); reading an out-of-range cell panics (`none`). -/
def addDependees (sheet : SpreadSheet) (cellId formula : String) : Option SpreadSheet :=
  (getCellIdsFromFormula formula).bind (fun ids =>
    ids.foldlM (fun sh i =>
      (cellAt sh i.row i.col).map (fun _ =>
        modifyCell sh i.row i.col (fun c =>
          Cell.mk (insertKey c.dependentCells cellId) c.value c.formula))) sheet)

/-- The evaluation loop of Go `computeCellValue`: fold the signed terms,
reading referenced cells' current values; `none` models the panic of reading
an out-of-range cell. -/
def evalCellIds (sheet : SpreadSheet) (ids : List CellId) : Option Int :=
  ids.foldlM (fun acc i =>
    if i.sign = "+" then
      match i.val with
      | some v => some (acc + v)
      | none => (cellAt sheet i.row i.col).map (fun c => acc + c.value)
    else if i.sign = "-" then
      match i.val with
      | some v => some (acc - v)
      | none => (cellAt sheet i.row i.col).map (fun c => acc - c.value)
    else some acc) 0

/-- Go `computeCellValue`: resolve the cell (silently returning on a
resolution error), evaluate its formula against the current sheet and store
the result; a cell without a formula has its value reset to 0. -/
def computeCellValue (sheet : SpreadSheet) (cellId : String) : Option SpreadSheet :=
  match getCellRowCol cellId with
  | none => none
  | some (_, _, some _) => some sheet
  | some (row, col, none) =>
    (cellAt sheet row col).bind (fun cell =>
      match cell.formula with
      | none => some (modifyCell sheet row col (fun c => Cell.mk c.dependentCells 0 c.formula))
      | some f =>
        (getCellIdsFromFormula f).bind (fun ids =>
          (evalCellIds sheet ids).map (fun v =>
            modifyCell sheet row col (fun c => Cell.mk c.dependentCells v c.formula))))

/-- Go `CreateSpreadSheet`: `numRows × min(numCols, 26)` cells, each starting
with value 0, no formula and an empty dependents map. -/
def CreateSpreadSheet (numRows numCols : Nat) : SpreadSheet :=
  let cols := if numCols > 26 then 26 else numCols
  SpreadSheet.mk (List.replicate numRows (List.replicate cols (Cell.mk [] 0 none)))

/-- Go `SetCellValue`, step for step: resolve the id; normalise an
all-whitespace value to "0"; drop the old formula's dependency edges; either
store an integer literal (clearing the formula) or store the formula text and
evaluate it; add the new formula's edges; finally recompute every direct
dependent of this cell once.  `SetRes.panic` models a Go runtime panic. -/
def SetCellValue (sheet : SpreadSheet) (cellId value : String) : SetRes :=
  match getCellRowCol cellId with
  | none => SetRes.panic
  | some (_, _, some msg) => SetRes.err msg sheet
  | some (row, col, none) =>
    let v := if value.data.all Char.isWhitespace then "0" else value
    match cellAt sheet row col with
    | none => SetRes.panic
    | some cell0 =>
      match
        (match cell0.formula with
         | some f => deleteDependees sheet cellId f
         | none => some sheet) with
      | none => SetRes.panic
      | some sheet1 =>
        match
          (match go_atoi v with
           | some n => some (modifyCell sheet1 row col (fun c => Cell.mk c.dependentCells n none))
           | none =>
             computeCellValue
               (modifyCell sheet1 row col (fun c => Cell.mk c.dependentCells c.value (some v)))
               cellId) with
        | none => SetRes.panic
        | some sheet2 =>
          match cellAt sheet2 row col with
          | none => SetRes.panic
          | some cell2 =>
            match
              (match cell2.formula with
               | some f => addDependees sheet2 cellId f
               | none => some sheet2) with
            | none => SetRes.panic
            | some sheet3 =>
              match cellAt sheet3 row col with
              | none => SetRes.panic
              | some cell3 =>
                match cell3.dependentCells.foldlM (fun sh cid => computeCellValue sh cid) sheet3 with
                | none => SetRes.panic
                | some sheet4 => SetRes.ok sheet4

/-- Go `GetCellValue`: resolve, bounds-check the row against the number of
rows and the column against the length of row 0, return the stored value.
The row check only guards the upper side, so a negative resolved row reaches
the cell read and panics. -/
def GetCellValue (sheet : SpreadSheet) (cellId : String) : GoRes Int :=
  match getCellRowCol cellId with
  | none => GoRes.panic
  | some (_, _, some msg) => GoRes.err msg
  | some (row, col, none) =>
    if row ≥ (sheet.cells.length : Int) then GoRes.err "Row number out of bounds in cellId"
    else
      match idx sheet.cells 0 with
      | none => GoRes.panic
      | some row0 =>
        if col ≥ (row0.length : Int) then GoRes.err "Column value out of bounds in cellId"
        else
          match cellAt sheet row col with
          | none => GoRes.panic
          | some cell => GoRes.ok cell.value

/-- Sequencing helper: run another `SetCellValue` after a previous result
(errors and panics propagate), for stating multi-step scenarios. -/
def runSet (r : SetRes) (cellId value : String) : SetRes :=
  match r with
  | SetRes.ok s => SetCellValue s cellId value
  | x => x

/-- Read a cell's value after a run of `SetCellValue` steps. -/
def getAfter (r : SetRes) (cellId : String) : GoRes Int :=
  match r with
  | SetRes.ok s => GetCellValue s cellId
  | SetRes.err m _ => GoRes.err m
  | SetRes.panic => GoRes.panic

/-- Inspect a cell (by zero-based coordinates) after a run of `SetCellValue`
steps. -/
def cellAfter (r : SetRes) (row col : Int) : Option Cell :=
  match r with
  | SetRes.ok s => cellAt s row col
  | _ => none

/-- Follows the spec's words: the value obtained by "evaluating its formula
(or its literal) from scratch against the current stored values of its
referenced cells", expressed with the code's own term semantics. -/
def specFreshValue (sheet : SpreadSheet) (cellId : String) : Option Int :=
  match getCellRowCol cellId with
  | some (row, col, none) =>
    (cellAt sheet row col).bind (fun cell =>
      match cell.formula with
      | none => some cell.value
      | some f => (getCellIdsFromFormula f).bind (fun ids => evalCellIds sheet ids))
  | _ => none

/-- `specFreshValue` after a run of `SetCellValue` steps. -/
def freshEvalAfter (r : SetRes) (cellId : String) : Option Int :=
  match r with
  | SetRes.ok s => specFreshValue s cellId
  | _ => none

/-- Claim C1: false as stated.  After the successful call
`SetCellValue("A1","99")` on a sheet where `C2="=A1"` and `D1="=C2"` are
installed, the transitive dependent D1 still stores its stale value 0,
while evaluating its formula from scratch against the current sheet gives
99: propagation is direct-dependents-only, not transitive. -/
theorem C1_counterexample :
    cellAfter (runSet (runSet (runSet (SetRes.ok (CreateSpreadSheet 2 4))
        "C2" "=A1") "D1" "=C2") "A1" "99") 0 3 = some (Cell.mk [] 0 (some "=C2"))
    ∧ freshEvalAfter (runSet (runSet (runSet (SetRes.ok (CreateSpreadSheet 2 4))
        "C2" "=A1") "D1" "=C2") "A1" "99") "D1" = some 99 := by
  constructor
  · rfl
  · rfl

/-- Claim C1, amended: `SetCellValue` recomputes only the entries of the
changed cell's `dependentCells` map, once each; cells at two or more hops are
not recomputed and may be left stale.  In the chain `C2="=A1"`, `D1="=C2"`,
setting A1 to 99 updates the direct dependent C2 to 99 but leaves D1 at its
stale stored value 0, although from-scratch evaluation of D1's formula gives
99. -/
theorem C1_amended_direct_only :
    cellAfter (runSet (runSet (runSet (SetRes.ok (CreateSpreadSheet 2 4))
        "C2" "=A1") "D1" "=C2") "A1" "99") 1 2 = some (Cell.mk ["D1"] 99 (some "=A1"))
    ∧ cellAfter (runSet (runSet (runSet (SetRes.ok (CreateSpreadSheet 2 4))
        "C2" "=A1") "D1" "=C2") "A1" "99") 0 3 = some (Cell.mk [] 0 (some "=C2"))
    ∧ freshEvalAfter (runSet (runSet (runSet (SetRes.ok (CreateSpreadSheet 2 4))
        "C2" "=A1") "D1" "=C2") "A1" "99") "D1" = some 99 := by
  refine ⟨rfl, rfl, rfl⟩

/-- Claim C2: false as stated.  After `SetCellValue("A1","=B1")`, the call
`SetCellValue("B1","=A1")` does not fail: it returns success and installs the
cyclic formula on B1 (whose value and formula both change from their previous
state `⟨["A1"], 0, none⟩`). -/
theorem C2_counterexample :
    runSet (runSet (SetRes.ok (CreateSpreadSheet 1 2)) "A1" "=B1") "B1" "=A1" =
      SetRes.ok (SpreadSheet.mk [[Cell.mk ["B1"] 0 (some "=B1"),
                                  Cell.mk ["A1"] 0 (some "=A1")]])
    ∧ cellAfter (runSet (SetRes.ok (CreateSpreadSheet 1 2)) "A1" "=B1") 0 1 =
      some (Cell.mk ["A1"] 0 none) := by
  constructor
  · rfl
  · rfl

/-- Claim C2, amended: the code performs no cycle detection.  Installing a
formula that closes a dependency cycle succeeds: after `Set("A1","=B1")`,
`Set("B1","=A1")` returns success (no error), stores formula "=A1" on B1 with
value 0, and terminates because only the direct dependents of B1 are
recomputed once each. -/
theorem C2_amended_no_cycle_detection :
    getAfter (runSet (runSet (SetRes.ok (CreateSpreadSheet 1 2)) "A1" "=B1") "B1" "=A1") "B1" =
      GoRes.ok 0
    ∧ cellAfter (runSet (runSet (SetRes.ok (CreateSpreadSheet 1 2)) "A1" "=B1") "B1" "=A1") 0 1 =
      some (Cell.mk ["A1"] 0 (some "=A1")) := by
  constructor
  · rfl
  · rfl

/-- Claim C3: false as stated.  `SetCellValue("A1","=XYZ")` contains the token
"XYZ", which is neither an integer literal nor a resolvable reference; the
call does not return a ParseError: the ignored resolution error leaves the
token's coordinates at (-1,-1) and evaluating the freshly stored formula
indexes the grid out of range, a runtime panic. -/
theorem C3_counterexample :
    SetCellValue (CreateSpreadSheet 2 2) "A1" "=XYZ" = SetRes.panic := by
  rfl

/-- Claim C4: false as stated.  After `SetCellValue("B1","=5")` on a fresh
1×2 sheet, A1's dependents set contains B1, although B1's formula "=5"
parses to a single literal term and contains no cell reference at all:
literal tokens are materialised as `CellId` records with the zero-value
coordinates (0,0) and `addDependees` does not skip them. -/
theorem C4_counterexample :
    cellAfter (runSet (SetRes.ok (CreateSpreadSheet 1 2)) "B1" "=5") 0 0 =
      some (Cell.mk ["B1"] 0 none)
    ∧ getCellIdsFromFormula "=5" = some [CellId.mk 0 0 "+" (some 5)]
    ∧ (getCellIdsFromFormula "=5").map (fun l => l.filter (fun i => i.val.isNone)) =
      some [] := by
  refine ⟨rfl, rfl, rfl⟩

/-- Claim C4, amended: a cell-reference term in Y's formula does add Y to the
referenced cell's dependents (`Set("B1","=A1")` puts B1 into A1's set), but
every integer-literal term of a formula additionally adds Y to the dependents
of the cell at coordinates (0,0) (i.e. A1), because literal tokens carry the
zero-value coordinates and `addDependees` indexes the grid with them without
checking the `val` field (`Set("B1","=5")` also puts B1 into A1's set). -/
theorem C4_amended_literal_edges :
    cellAfter (runSet (SetRes.ok (CreateSpreadSheet 1 2)) "B1" "=A1") 0 0 =
      some (Cell.mk ["B1"] 0 none)
    ∧ cellAfter (runSet (SetRes.ok (CreateSpreadSheet 1 2)) "B1" "=5") 0 0 =
      some (Cell.mk ["B1"] 0 none)
    ∧ cellAfter (runSet (SetRes.ok (CreateSpreadSheet 1 2)) "B1" "=5") 0 1 =
      some (Cell.mk [] 5 (some "=5")) := by
  refine ⟨rfl, rfl, rfl⟩

/-- Claim C6: confirmed on its scenario.  `Set("A1","=B1")` then
`Set("A1","5")` removes the stale edge (B1's dependents become empty), and a
subsequent `Set("B1","7")` therefore recomputes nothing: A1 keeps the literal
value 5 with no formula. -/
theorem C6_replacement_removes_edges :
    cellAfter (runSet (runSet (SetRes.ok (CreateSpreadSheet 1 2))
        "A1" "=B1") "A1" "5") 0 1 = some (Cell.mk [] 0 none)
    ∧ getAfter (runSet (runSet (runSet (SetRes.ok (CreateSpreadSheet 1 2))
        "A1" "=B1") "A1" "5") "B1" "7") "A1" = GoRes.ok 5
    ∧ cellAfter (runSet (runSet (runSet (SetRes.ok (CreateSpreadSheet 1 2))
        "A1" "=B1") "A1" "5") "B1" "7") 0 0 = some (Cell.mk [] 5 none) := by
  refine ⟨rfl, rfl, rfl⟩

/-- Claim C7: false as stated.  On a 3×3 sheet the identifier "A0" resolves
to row -1; the row bounds check only guards the upper side, so `GetCellValue`
neither returns the stored value nor an OutOfBounds/InvalidCellId error: it
panics on the negative index. -/
theorem C7_counterexample :
    GetCellValue (CreateSpreadSheet 3 3) "A0" = GoRes.panic := by
  rfl

/-- Claim C10: false as stated.  "A01" and "A1" resolve to the same cell but
are different map keys.  After `Set("A01","=A1")`, the call `Set("A1","5")`
(whose argument parses as the integer 5) stores 5 but then recomputes the
dependent entry "A01", which now has no formula, resetting the cell to 0:
the immediately following `GetCellValue("A1")` returns 0, not 5. -/
theorem C10_counterexample :
    go_atoi "5" = some 5
    ∧ getAfter (runSet (runSet (SetRes.ok (CreateSpreadSheet 1 1))
        "A01" "=A1") "A1" "5") "A1" = GoRes.ok 0 := by
  constructor
  · rfl
  · rfl

/-- A decimal digit is not a whitespace character. -/
theorem isDigit_not_isWhitespace (c : Char) (h : c.isDigit = true) :
    c.isWhitespace = false := by
  revert h
  simp only [Char.isDigit, Char.isWhitespace]
  intro h
  by_contra hw
  simp only [Bool.not_eq_false, Bool.or_eq_true, decide_eq_true_eq] at hw h
  rcases hw with ((h1 | h1) | h1) | h1 <;> subst h1 <;> revert h <;> decide

/-- All characters accepted by `go_atoi_digits` are digits. -/
theorem go_atoi_digits_chars (l : List Char) (n : Int) (h : go_atoi_digits l = some n) :
    ∀ ch ∈ l, ch.isDigit = true := by
  intro ch hch
  unfold go_atoi_digits at h
  by_cases h1 : l = []
  · rw [if_pos h1] at h; exact absurd h (by simp)
  · rw [if_neg h1] at h
    by_cases h2 : l.all Char.isDigit
    · exact (List.all_eq_true.1 h2) ch hch
    · rw [if_neg (by simpa using h2)] at h
      exact absurd h (by simp)

/-- Every character of a string accepted by `go_atoi` is a sign or a digit. -/
theorem go_atoi_chars (s : String) (n : Int) (h : go_atoi s = some n) :
    ∀ ch ∈ s.data, ch = '-' ∨ ch = '+' ∨ ch.isDigit = true := by
  intro ch hch
  unfold go_atoi at h
  match hs : s.data with
  | [] => rw [hs] at hch; exact absurd hch (by simp)
  | c :: rest =>
    rw [hs] at h hch
    dsimp only at h
    by_cases hm : c = '-'
    · rw [if_pos hm] at h
      rcases List.mem_cons.1 hch with hh | hh
      · exact Or.inl (hh.trans hm)
      · match hd : go_atoi_digits rest with
        | none => rw [hd] at h; exact absurd h (by simp)
        | some v => exact Or.inr (Or.inr (go_atoi_digits_chars rest v hd ch hh))
    · rw [if_neg hm] at h
      by_cases hp : c = '+'
      · rw [if_pos hp] at h
        rcases List.mem_cons.1 hch with hh | hh
        · exact Or.inr (Or.inl (hh.trans hp))
        · exact Or.inr (Or.inr (go_atoi_digits_chars rest n h ch hh))
      · rw [if_neg hp] at h
        exact Or.inr (Or.inr (go_atoi_digits_chars (c :: rest) n h ch hch))

/-- A string accepted by `go_atoi` contains no colon. -/
theorem go_atoi_no_colon (s : String) (n : Int) (h : go_atoi s = some n) :
    ':' ∉ s.data := by
  intro hmem
  rcases go_atoi_chars s n h ':' hmem with h1 | h1 | h1 <;> revert h1 <;> decide

/-- A string accepted by `go_atoi` is not all-whitespace (so `SetCellValue`
does not normalise it to "0"). -/
theorem go_atoi_not_whitespace (s : String) (n : Int) (h : go_atoi s = some n) :
    s.data.all Char.isWhitespace = false := by
  match hs : s.data with
  | [] =>
    unfold go_atoi at h
    rw [hs] at h
    exact absurd h (by simp)
  | c :: rest =>
    have hc : c = '-' ∨ c = '+' ∨ c.isDigit = true := by
      refine go_atoi_chars s n h c ?_
      rw [hs]; exact List.mem_cons_self c rest
    have hcw : c.isWhitespace = false := by
      rcases hc with h1 | h1 | h1
      · subst h1; decide
      · subst h1; decide
      · exact isDigit_not_isWhitespace c h1
    simp [hcw]

/-- A cell id accepted without error by `getCellRowCol` contains no colon
(its first character is a letter-range byte, the rest are accepted by
`go_atoi`). -/
theorem getCellRowCol_no_colon (s : String) (r c : Int)
    (h : getCellRowCol s = some (r, c, none)) : ':' ∉ s.data := by
  unfold getCellRowCol at h
  match hs : s.data with
  | [] => rw [hs] at h; exact absurd h (by simp)
  | ch :: rest =>
    rw [hs] at h
    by_cases hcol : (ch.toNat + 191) % 256 ≥ 26
    · simp only [if_pos hcol] at h
      exact absurd h (by simp)
    · simp only [if_neg hcol] at h
      intro hmem
      rcases List.mem_cons.1 hmem with hh | hh
      · have hge : (':'.toNat + 191) % 256 ≥ 26 := by decide
        rw [hh] at hge
        exact hcol hge
      · match ha : go_atoi (String.mk rest) with
        | none => rw [ha] at h; exact absurd h (by simp)
        | some row => exact go_atoi_no_colon (String.mk rest) row ha hh

/-- `getCellRowCol` returns a non-negative column strictly below 26 when it
reports no error. -/
theorem getCellRowCol_col_range (s : String) (r c : Int)
    (h : getCellRowCol s = some (r, c, none)) : 0 ≤ c ∧ c < 26 := by
  unfold getCellRowCol at h
  match hs : s.data with
  | [] => rw [hs] at h; exact absurd h (by simp)
  | ch :: rest =>
    rw [hs] at h
    by_cases hcol : (ch.toNat + 191) % 256 ≥ 26
    · simp only [if_pos hcol] at h
      exact absurd h (by simp)
    · simp only [if_neg hcol] at h
      match ha : go_atoi (String.mk rest) with
      | none => rw [ha] at h; exact absurd h (by simp)
      | some row =>
        rw [ha] at h
        simp only [Option.some_inj, Prod.mk.injEq] at h
        obtain ⟨h1, h2, h3⟩ := h
        subst h2
        constructor
        · exact Int.ofNat_nonneg _
        · omega

/-- One-step unfolding of `splitOnColon` on a cons cell. -/
theorem splitOnColon_cons (c : Char) (rest : List Char) :
    splitOnColon (c :: rest) =
      if c = ':' then [] :: splitOnColon rest
      else
        match splitOnColon rest with
        | [] => [[c]]
        | h :: t => (c :: h) :: t := rfl

/-- Splitting a colon-free character list on ':' yields the list itself. -/
theorem splitOnColon_of_not_mem (l : List Char) (h : ':' ∉ l) :
    splitOnColon l = [l] := by
  induction l with
  | nil => rfl
  | cons c rest ih =>
    have hc : c ≠ ':' := fun hh => h (hh ▸ List.mem_cons_self c rest)
    have hr : ':' ∉ rest := fun hh => h (List.mem_cons_of_mem c hh)
    unfold splitOnColon
    rw [if_neg hc, ih hr]

/-- Splitting `l1 ++ ':' :: l2` on ':' peels off the colon-free prefix. -/
theorem splitOnColon_append (l1 l2 : List Char) (h : ':' ∉ l1) :
    splitOnColon (l1 ++ ':' :: l2) = l1 :: splitOnColon l2 := by
  induction l1 with
  | nil =>
    show splitOnColon (':' :: l2) = [] :: splitOnColon l2
    rw [splitOnColon_cons, if_pos rfl]
  | cons c rest ih =>
    have hc : c ≠ ':' := fun hh => h (hh ▸ List.mem_cons_self c rest)
    have hr : ':' ∉ rest := fun hh => h (List.mem_cons_of_mem c hh)
    show splitOnColon (c :: (rest ++ ':' :: l2)) = (c :: rest) :: splitOnColon l2
    rw [splitOnColon_cons, if_neg hc, ih hr]

/-- `listModify` preserves the length. -/
theorem listModify_length {α : Type} (l : List α) (n : Nat) (f : α → α) :
    (listModify l n f).length = l.length := by
  induction l generalizing n with
  | nil => rfl
  | cons x xs ih =>
    cases n with
    | zero => rfl
    | succ m => simp [listModify, ih]

/-- Reading the modified position of `listModify`. -/
theorem listModify_get_self {α : Type} (l : List α) (n : Nat) (f : α → α)
    (a : α) (h : l.get? n = some a) : (listModify l n f).get? n = some (f a) := by
  induction l generalizing n with
  | nil => simp at h
  | cons x xs ih =>
    cases n with
    | zero =>
      simp only [List.get?] at h
      injection h with h
      subst h
      rfl
    | succ m =>
      simp only [List.get?] at h
      exact ih m h

/-- Reading an untouched position of `listModify`. -/
theorem listModify_get_ne {α : Type} (l : List α) (n m : Nat) (f : α → α)
    (h : n ≠ m) : (listModify l n f).get? m = l.get? m := by
  induction l generalizing n m with
  | nil => rfl
  | cons x xs ih =>
    cases n with
    | zero =>
      cases m with
      | zero => exact absurd rfl h
      | succ k => rfl
    | succ j =>
      cases m with
      | zero => rfl
      | succ k => exact ih j k (fun hh => h (by rw [hh]))

/-- The row/column profile of a sheet; every mutation in the code preserves
it. -/
def shape (s : SpreadSheet) : List Nat := s.cells.map List.length

/-- The dependents list stored at a coordinate (empty when out of range). -/
def depsAt (s : SpreadSheet) (row col : Int) : List String :=
  match cellAt s row col with
  | some cell => cell.dependentCells
  | none => []

theorem idx_neg {α : Type} (l : List α) (i : Int) (h : i < 0) : idx l i = none := by
  unfold idx
  rw [if_pos h]

theorem idx_nonneg {α : Type} (l : List α) (i : Int) (h : 0 ≤ i) :
    idx l i = l.get? i.toNat := by
  unfold idx
  rw [if_neg (by omega)]

theorem get?_some_of_lt {α : Type} (l : List α) (n : Nat) (h : n < l.length) :
    ∃ a, l.get? n = some a :=
  ⟨l.get ⟨n, h⟩, List.get?_eq_get h⟩

theorem lt_of_get?_some {α : Type} (l : List α) (n : Nat) (a : α)
    (h : l.get? n = some a) : n < l.length := by
  by_contra hn
  rw [List.get?_eq_none.2 (by omega)] at h
  exact absurd h (by simp)

/-- Decomposition of a successful `cellAt` read. -/
theorem cellAt_bounds (s : SpreadSheet) (r c : Int) (cell : Cell)
    (h : cellAt s r c = some cell) :
    0 ≤ r ∧ 0 ≤ c ∧ r.toNat < s.cells.length ∧
      ∃ rowL, s.cells.get? r.toNat = some rowL ∧ c.toNat < rowL.length ∧
        rowL.get? c.toNat = some cell := by
  unfold cellAt at h
  by_cases hr : r < 0
  · rw [idx_neg s.cells r hr] at h
    exact absurd h (by simp)
  · rw [idx_nonneg s.cells r (by omega)] at h
    match hrow : s.cells.get? r.toNat with
    | none => rw [hrow] at h; exact absurd h (by simp)
    | some rowL =>
      rw [hrow] at h
      simp only [Option.some_bind] at h
      by_cases hc : c < 0
      · rw [idx_neg rowL c hc] at h
        exact absurd h (by simp)
      · rw [idx_nonneg rowL c (by omega)] at h
        exact ⟨by omega, by omega, lt_of_get?_some _ _ _ hrow,
          rowL, rfl, lt_of_get?_some _ _ _ h, h⟩

theorem listModify_map_length {α : Type} (l : List (List α)) (n m : Nat) (g : α → α) :
    (listModify l n (fun row => listModify row m g)).map List.length =
      l.map List.length := by
  induction l generalizing n with
  | nil => rfl
  | cons x xs ih =>
    cases n with
    | zero => simp [listModify, listModify_length]
    | succ k => simp [listModify, ih k]

theorem modifyCell_shape (s : SpreadSheet) (r c : Int) (f : Cell → Cell) :
    shape (modifyCell s r c f) = shape s := by
  unfold modifyCell
  by_cases h : (r < 0 || c < 0) = true
  · rw [if_pos h]
  · rw [if_neg h]
    unfold shape
    exact listModify_map_length s.cells r.toNat c.toNat f

theorem shape_cells_length (s1 s2 : SpreadSheet) (h : shape s1 = shape s2) :
    s1.cells.length = s2.cells.length := by
  have hl := congrArg List.length h
  simpa [shape] using hl

theorem shape_row_length (s1 s2 : SpreadSheet) (h : shape s1 = shape s2) (n : Nat) :
    (s1.cells.get? n).map List.length = (s2.cells.get? n).map List.length := by
  unfold shape at h
  rw [← List.get?_map, ← List.get?_map, h]

/-- A coordinate readable in `s2` is readable in any sheet of the same shape. -/
theorem cellAt_some_of_shape (s1 s2 : SpreadSheet) (h : shape s1 = shape s2)
    (r c : Int) (cell : Cell) (hc : cellAt s2 r c = some cell) :
    ∃ cell1, cellAt s1 r c = some cell1 := by
  obtain ⟨hr0, hc0, hrlt, rowL, hrow, hclt, hget⟩ := cellAt_bounds s2 r c cell hc
  have hlen : r.toNat < s1.cells.length := by
    rw [shape_cells_length s1 s2 h]; exact hrlt
  obtain ⟨rowL1, hrow1⟩ := get?_some_of_lt s1.cells r.toNat hlen
  have hml := shape_row_length s1 s2 h r.toNat
  rw [hrow, hrow1] at hml
  simp only [Option.map_some'] at hml
  have hlen1 : c.toNat < rowL1.length := by
    injection hml with hml
    omega
  obtain ⟨cell1, hcell1⟩ := get?_some_of_lt rowL1 c.toNat hlen1
  refine ⟨cell1, ?_⟩
  unfold cellAt
  rw [idx_nonneg s1.cells r hr0, hrow1]
  simp only [Option.some_bind]
  rw [idx_nonneg rowL1 c hc0, hcell1]

/-- Reading back the modified cell. -/
theorem cellAt_modify_self (s : SpreadSheet) (r c : Int) (f : Cell → Cell)
    (cell : Cell) (h : cellAt s r c = some cell) :
    cellAt (modifyCell s r c f) r c = some (f cell) := by
  obtain ⟨hr0, hc0, hrlt, rowL, hrow, hclt, hget⟩ := cellAt_bounds s r c cell h
  unfold modifyCell
  rw [if_neg (by simp; omega)]
  unfold cellAt
  rw [idx_nonneg _ r hr0]
  simp only
  rw [listModify_get_self s.cells r.toNat _ rowL hrow]
  simp only [Option.some_bind]
  rw [idx_nonneg _ c hc0]
  exact listModify_get_self rowL c.toNat f cell hget

/-- Modifying one coordinate leaves every other coordinate unchanged. -/
theorem cellAt_modify_ne (s : SpreadSheet) (r c r2 c2 : Int) (f : Cell → Cell)
    (hne : ¬ (r2 = r ∧ c2 = c)) :
    cellAt (modifyCell s r2 c2 f) r c = cellAt s r c := by
  unfold modifyCell
  by_cases hneg : (r2 < 0 || c2 < 0) = true
  · rw [if_pos hneg]
  · rw [if_neg hneg]
    have hr2 : 0 ≤ r2 := by
      by_contra hh
      simp only [Bool.or_eq_true, decide_eq_true_eq] at hneg
      exact hneg (Or.inl (by omega))
    have hc2 : 0 ≤ c2 := by
      by_contra hh
      simp only [Bool.or_eq_true, decide_eq_true_eq] at hneg
      exact hneg (Or.inr (by omega))
    unfold cellAt
    by_cases hr : r < 0
    · rw [idx_neg _ r hr, idx_neg _ r hr]
    · rw [idx_nonneg _ r (by omega)]
      rw [idx_nonneg (s.cells) r (by omega)]
      by_cases hrr : r2 = r
      · subst hrr
        have hcc : ¬ c2 = c := fun hh => hne ⟨rfl, hh⟩
        match hrow : s.cells.get? r2.toNat with
        | none =>
          have hlen : s.cells.length ≤ r2.toNat := by
            by_contra hh
            obtain ⟨a, ha⟩ := get?_some_of_lt s.cells r2.toNat (by omega)
            rw [ha] at hrow
            exact absurd hrow (by simp)
          rw [List.get?_eq_none.2 (by rw [listModify_length]; omega)]
        | some rowL =>
          rw [listModify_get_self s.cells r2.toNat _ rowL hrow]
          simp only [Option.some_bind]
          by_cases hc : c < 0
          · rw [idx_neg _ c hc, idx_neg _ c hc]
          · rw [idx_nonneg _ c (by omega), idx_nonneg _ c (by omega)]
            exact listModify_get_ne rowL c2.toNat c.toNat f (by omega)
      · rw [listModify_get_ne s.cells r2.toNat r.toNat _ (by omega)]

/-- Invariant lemma for an `Option`-valued left fold, used for the dependee
removal loop and the dependents recomputation loop. -/
theorem foldlM_option_invariant {α β : Type} (R : α → α → Prop)
    (step : α → β → Option α)
    (Rrefl : ∀ x, R x x)
    (Rtrans : ∀ x y z, R x y → R y z → R x z) :
    ∀ (l : List β) (a a2 : α),
      (∀ x b x2, b ∈ l → step x b = some x2 → R x x2) →
      l.foldlM step a = some a2 → R a a2 := by
  intro l
  induction l with
  | nil =>
    intro a a2 hstep h
    simp only [List.foldlM_nil] at h
    injection h with h
    exact h ▸ Rrefl a
  | cons b rest ih =>
    intro a a2 hstep h
    rw [List.foldlM_cons] at h
    match hs : step a b with
    | none => rw [hs] at h; exact absurd h (by simp)
    | some a1 =>
      rw [hs] at h
      simp only [Option.bind_eq_bind, Option.some_bind] at h
      exact Rtrans a a1 a2
        (hstep a b a1 (List.mem_cons_self b rest) hs)
        (ih a1 a2 (fun x y x2 hm hst => hstep x y x2 (List.mem_cons_of_mem b hm) hst) h)

/-- `computeCellValue` preserves the sheet's shape. -/
theorem computeCellValue_shape (s s2 : SpreadSheet) (cid : String)
    (h : computeCellValue s cid = some s2) : shape s2 = shape s := by
  unfold computeCellValue at h
  match hg : getCellRowCol cid with
  | none => rw [hg] at h; exact absurd h (by simp)
  | some (r, c, some msg) =>
    rw [hg] at h
    dsimp only at h
    injection h with h
    rw [← h]
  | some (r, c, none) =>
    rw [hg] at h
    dsimp only at h
    match hc : cellAt s r c with
    | none => rw [hc] at h; exact absurd h (by simp)
    | some cell =>
      rw [hc] at h
      simp only [Option.some_bind] at h
      match hf : cell.formula with
      | none =>
        rw [hf] at h
        dsimp only at h
        injection h with h
        rw [← h, modifyCell_shape]
      | some f =>
        rw [hf] at h
        dsimp only at h
        match hids : getCellIdsFromFormula f with
        | none => rw [hids] at h; exact absurd h (by simp)
        | some ids =>
          rw [hids] at h
          simp only [Option.some_bind] at h
          match hev : evalCellIds s ids with
          | none => rw [hev] at h; exact absurd h (by simp)
          | some v =>
            rw [hev] at h
            simp only [Option.map_some'] at h
            injection h with h
            rw [← h, modifyCell_shape]

/-- `computeCellValue` writes only at the coordinates its argument resolves
to: every other coordinate is untouched. -/
theorem computeCellValue_preserves_other (s s2 : SpreadSheet) (cid : String)
    (row col : Int)
    (hne : getCellRowCol cid ≠ some (row, col, none))
    (h : computeCellValue s cid = some s2) :
    cellAt s2 row col = cellAt s row col := by
  unfold computeCellValue at h
  match hg : getCellRowCol cid with
  | none => rw [hg] at h; exact absurd h (by simp)
  | some (r, c, some msg) =>
    rw [hg] at h
    dsimp only at h
    injection h with h
    rw [← h]
  | some (r, c, none) =>
    have hne2 : ¬ (r = row ∧ c = col) := by
      rintro ⟨hh1, hh2⟩
      subst hh1; subst hh2
      exact hne hg
    rw [hg] at h
    dsimp only at h
    match hc : cellAt s r c with
    | none => rw [hc] at h; exact absurd h (by simp)
    | some cell =>
      rw [hc] at h
      simp only [Option.some_bind] at h
      match hf : cell.formula with
      | none =>
        rw [hf] at h
        dsimp only at h
        injection h with h
        rw [← h]
        exact cellAt_modify_ne s row col r c _ hne2
      | some f =>
        rw [hf] at h
        dsimp only at h
        match hids : getCellIdsFromFormula f with
        | none => rw [hids] at h; exact absurd h (by simp)
        | some ids =>
          rw [hids] at h
          simp only [Option.some_bind] at h
          match hev : evalCellIds s ids with
          | none => rw [hev] at h; exact absurd h (by simp)
          | some v =>
            rw [hev] at h
            simp only [Option.map_some'] at h
            injection h with h
            rw [← h]
            exact cellAt_modify_ne s row col r c _ hne2

/-- The dependent-recomputation loop of `SetCellValue` does not touch a
coordinate that none of the iterated ids resolves to, and preserves the
shape. -/
theorem recompute_fold_preserves (row col : Int) (l : List String)
    (s s2 : SpreadSheet)
    (halias : ∀ cid ∈ l, getCellRowCol cid ≠ some (row, col, none))
    (h : l.foldlM (fun sh cid => computeCellValue sh cid) s = some s2) :
    shape s2 = shape s ∧ cellAt s2 row col = cellAt s row col := by
  refine foldlM_option_invariant
    (fun x y => shape y = shape x ∧ cellAt y row col = cellAt x row col)
    (fun sh cid => computeCellValue sh cid)
    (fun x => ⟨rfl, rfl⟩)
    (fun x y z hxy hyz => ⟨hyz.1.trans hxy.1, hyz.2.trans hxy.2⟩)
    l s s2 ?_ h
  intro x b x2 hm hs
  exact ⟨computeCellValue_shape x x2 b hs,
    computeCellValue_preserves_other x x2 b row col (halias b hm) hs⟩

/-- `deleteDependees` preserves the shape and only ever shrinks a dependents
list. -/
theorem deleteDependees_effect (s s2 : SpreadSheet) (cellId formula : String)
    (row col : Int)
    (h : deleteDependees s cellId formula = some s2) :
    shape s2 = shape s ∧ depsAt s2 row col ⊆ depsAt s row col := by
  unfold deleteDependees at h
  match hids : getCellIdsFromFormula formula with
  | none => rw [hids] at h; exact absurd h (by simp)
  | some ids =>
    rw [hids] at h
    simp only [Option.some_bind] at h
    refine foldlM_option_invariant
      (fun x y => shape y = shape x ∧ depsAt y row col ⊆ depsAt x row col)
      _ (fun x => ⟨rfl, fun a ha => ha⟩)
      (fun x y z hxy hyz => ⟨hyz.1.trans hxy.1, fun a ha => hxy.2 (hyz.2 ha)⟩)
      ids s s2 ?_ h
    intro x i x2 hm hs
    match hc : cellAt x i.row i.col with
    | none => rw [hc] at hs; exact absurd hs (by simp)
    | some cell =>
      rw [hc] at hs
      simp only [Option.map_some'] at hs
      injection hs with hs
      constructor
      · rw [← hs]
        exact modifyCell_shape x i.row i.col _
      · rw [← hs]
        by_cases hco : i.row = row ∧ i.col = col
        · obtain ⟨hh1, hh2⟩ := hco
          subst hh1; subst hh2
          unfold depsAt
          rw [cellAt_modify_self x i.row i.col _ cell hc, hc]
          dsimp only
          exact fun a ha => List.mem_of_mem_filter ha
        · unfold depsAt
          rw [cellAt_modify_ne x row col i.row i.col _ hco]
          exact fun a ha => ha

/-- Claim C5: confirmed.  For every cell id whose first character has the
byte value of an upper-case letter (65–90, i.e. 'A'–'Z') and whose remaining
characters are accepted by `strconv.Atoi` as the integer n, `getCellRowCol`
returns (n-1, column) with no error — even when n ≤ 0 or n-1 is at or beyond
the sheet's row count — and `SetCellValue` then indexes the grid at that row
without any bounds check: on a 3×3 sheet both "A0" (row -1) and "A9" (row 8)
make `SetCellValue` panic with out-of-range indexing instead of returning an
InvalidCellId or OutOfBounds error. -/
theorem C5_no_row_bounds_check (c : Char) (s : String) (n : Int)
    (h1 : 65 ≤ c.toNat) (h2 : c.toNat ≤ 90) (h3 : go_atoi s = some n) :
    getCellRowCol (String.mk (c :: s.data)) =
      some (n - 1, ((c.toNat : Int) - 65), none)
    ∧ SetCellValue (CreateSpreadSheet 3 3) "A0" "7" = SetRes.panic
    ∧ SetCellValue (CreateSpreadSheet 3 3) "A9" "7" = SetRes.panic := by
  refine ⟨?_, rfl, rfl⟩
  unfold getCellRowCol
  dsimp only
  have hcol : (c.toNat + 191) % 256 = c.toNat - 65 := by omega
  rw [hcol]
  rw [if_neg (by omega : ¬ c.toNat - 65 ≥ 26)]
  rw [(rfl : String.mk s.data = s), h3]
  have hcast : ((c.toNat - 65 : Nat) : Int) = (c.toNat : Int) - 65 := by omega
  rw [hcast]

/-- Witness for C5 at the concrete id "A0" (first character 'A', row text "0"
parsed by Atoi as 0): the resolution succeeds with row index -1. -/
theorem C5_witness :
    getCellRowCol (String.mk ('A' :: ("0" : String).data)) =
      some (0 - 1, (('A'.toNat : Int) - 65), none) :=
  (C5_no_row_bounds_check 'A' "0" 0 (by decide) (by decide) (by decide)).1

/-- Claim C9: confirmed.  `CreateSpreadSheet r c` with c ≤ 26 builds r rows
of c cells, every cell starting with value 0, no formula and an empty
dependents set; a request of 30 columns is clamped to 26. -/
theorem C9_create_clamp (r c : Nat) (h : c ≤ 26) :
    (CreateSpreadSheet r c).cells.length = r
    ∧ (∀ rowL ∈ (CreateSpreadSheet r c).cells, rowL.length = c
        ∧ ∀ cell ∈ rowL, cell = Cell.mk [] 0 none)
    ∧ ∀ rowL ∈ (CreateSpreadSheet r 30).cells, rowL.length = 26 := by
  unfold CreateSpreadSheet
  dsimp only
  rw [if_neg (by omega : ¬ c > 26), if_pos (by omega : (30 : Nat) > 26)]
  refine ⟨List.length_replicate r _, ?_, ?_⟩
  · intro rowL hrow
    have h1 := List.eq_of_mem_replicate hrow
    subst h1
    exact ⟨List.length_replicate c _,
      fun cell hcell => List.eq_of_mem_replicate hcell⟩
  · intro rowL hrow
    have h1 := List.eq_of_mem_replicate hrow
    subst h1
    exact List.length_replicate 26 _

/-- Witness for C9 at r = 2, c = 3: the sheet has 2 rows, its first row has
3 cells, and a 30-column request yields 26-cell rows. -/
theorem C9_witness : (CreateSpreadSheet 2 3).cells.length = 2 :=
  (C9_create_clamp 2 3 (by decide)).1

/-- Claim C8: confirmed.  A token built from two error-free endpoint ids
around ':' is split on the colon and expands to one signed cell reference per
cell of the inclusive rectangle, rows outer and columns inner (row-major),
all carrying the range's sign; and on a fresh 3×3 sheet with only A1 = 10,
`Set("C3","=A1:C2")` followed by `Get("C3")` yields 10. -/
theorem C8_range_rowmajor (s1 s2 sign : String) (r1 c1 r2 c2 : Int)
    (h1 : getCellRowCol s1 = some (r1, c1, none))
    (h2 : getCellRowCol s2 = some (r2, c2, none)) :
    getCellIdsFromRange (s1 ++ ":" ++ s2) sign =
      some ((intRange r1 r2).flatMap (fun r =>
        (intRange c1 c2).map (fun c => CellId.mk r c sign none)))
    ∧ getAfter (runSet (runSet (SetRes.ok (CreateSpreadSheet 3 3)) "A1" "10")
        "C3" "=A1:C2") "C3" = GoRes.ok 10 := by
  refine ⟨?_, rfl⟩
  have hno1 : ':' ∉ s1.data := getCellRowCol_no_colon s1 r1 c1 h1
  have hno2 : ':' ∉ s2.data := getCellRowCol_no_colon s2 r2 c2 h2
  have hd : (s1 ++ ":" ++ s2).data = s1.data ++ ':' :: s2.data := by
    rw [String.data_append, String.data_append, List.append_assoc]
    rfl
  have hcontains : (s1.data ++ ':' :: s2.data).contains ':' = true := by
    simp
  unfold getCellIdsFromRange
  rw [hd, hcontains]
  simp only [Bool.not_true]
  rw [if_neg (by simp)]
  rw [splitOnColon_append s1.data s2.data hno1,
    splitOnColon_of_not_mem s2.data hno2]
  dsimp only
  rw [show String.mk s1.data = s1 from rfl, show String.mk s2.data = s2 from rfl,
    h1, h2]

/-- Witness for C8 at the range "A1:C2" (endpoints (0,0) and (1,2)): six
row-major positive references, and the scenario read returns 10. -/
theorem C8_witness :
    getCellIdsFromRange ("A1" ++ ":" ++ "C2") "+" =
      some ((intRange 0 1).flatMap (fun r =>
        (intRange 0 2).map (fun c => CellId.mk r c "+" none)))
    ∧ getAfter (runSet (runSet (SetRes.ok (CreateSpreadSheet 3 3)) "A1" "10")
        "C3" "=A1:C2") "C3" = GoRes.ok 10 :=
  C8_range_rowmajor "A1" "C2" "+" 0 0 1 2 (by decide) (by decide)

/-- Evaluating a term list whose head is the `(-1,-1)` marker of an ignored
resolution error always panics: the grid is indexed at row -1. -/
theorem evalCellIds_bad_ref (s : SpreadSheet) :
    evalCellIds s [CellId.mk (-1) (-1) "+" none] = none := by
  unfold evalCellIds
  rw [List.foldlM_cons]
  dsimp only
  rw [if_pos rfl]
  unfold cellAt
  rw [idx_neg s.cells (-1) (by omega)]
  rfl

/-- Claim C3, amended: `SetCellValue` never returns a ParseError.  On a value
whose single token is neither an integer nor a resolvable reference (such as
"=XYZ"), the resolution error is ignored, the term keeps the coordinates
(-1,-1), and evaluating the freshly stored formula indexes the grid out of
range: the call panics after having already stored the formula text.  This is
stated for any target cell that resolves, exists, and holds no old formula. -/
theorem C3_amended_panic_not_parse_error (s : SpreadSheet) (cellId : String)
    (row col : Int) (cell : Cell)
    (hrc : getCellRowCol cellId = some (row, col, none))
    (hcell : cellAt s row col = some cell)
    (hnof : cell.formula = none) :
    SetCellValue s cellId "=XYZ" = SetRes.panic := by
  unfold SetCellValue
  rw [hrc]
  dsimp only
  have hv : (if ("=XYZ" : String).data.all Char.isWhitespace = true
      then "0" else "=XYZ") = "=XYZ" := by decide
  rw [hv, hcell]
  dsimp only
  rw [hnof]
  dsimp only
  have hga : go_atoi "=XYZ" = none := by decide
  rw [hga]
  dsimp only
  unfold computeCellValue
  rw [hrc]
  dsimp only
  rw [cellAt_modify_self s row col _ cell hcell]
  simp only [Option.some_bind]
  have hids : getCellIdsFromFormula "=XYZ" =
      some [CellId.mk (-1) (-1) "+" none] := by decide
  rw [hids]
  simp only [Option.some_bind]
  rw [evalCellIds_bad_ref]
  rfl

/-- Witness for C3's amended statement on a fresh 2×2 sheet at "A1". -/
theorem C3_amended_witness :
    SetCellValue (CreateSpreadSheet 2 2) "A1" "=XYZ" = SetRes.panic :=
  C3_amended_panic_not_parse_error (CreateSpreadSheet 2 2) "A1" 0 0
    (Cell.mk [] 0 none) (by decide) (by decide) rfl

/-- Claim C7, amended: `GetCellValue` is a pure read (it returns no sheet, so
it cannot mutate state).  It returns the malformed-id error verbatim; it
returns the row out-of-bounds error when the resolved row is at or beyond the
row count; with a valid row it returns the column out-of-bounds error when
the column is at or beyond the length of row 0; it returns the stored value
when both indices are in range and the resolved row is non-negative; but for
an id resolving to a negative row (surface row 0 or below, e.g. "A0") the
upper-side-only bounds check lets the negative index through and the read
panics instead of returning any error. -/
theorem C7_amended_get_classification (s : SpreadSheet) (cellId : String) :
    (getCellRowCol cellId = none → GetCellValue s cellId = GoRes.panic)
    ∧ (∀ r c msg, getCellRowCol cellId = some (r, c, some msg) →
        GetCellValue s cellId = GoRes.err msg)
    ∧ (∀ row col, getCellRowCol cellId = some (row, col, none) →
        (((s.cells.length : Int) ≤ row →
           GetCellValue s cellId = GoRes.err "Row number out of bounds in cellId")
         ∧ (∀ row0, s.cells.get? 0 = some row0 → row < (s.cells.length : Int) →
             (((row0.length : Int) ≤ col →
                GetCellValue s cellId = GoRes.err "Column value out of bounds in cellId")
              ∧ (col < (row0.length : Int) → 0 ≤ row →
                  (∀ rowL ∈ s.cells, rowL.length = row0.length) →
                  ∃ cell, cellAt s row col = some cell ∧
                    GetCellValue s cellId = GoRes.ok cell.value)
              ∧ (col < (row0.length : Int) → row < 0 →
                  GetCellValue s cellId = GoRes.panic))))) := by
  refine ⟨?_, ?_, ?_⟩
  · intro hg
    unfold GetCellValue
    rw [hg]
  · intro r c msg hg
    unfold GetCellValue
    rw [hg]
  · intro row col hg
    constructor
    · intro hrow
      unfold GetCellValue
      rw [hg]
      dsimp only
      rw [if_pos (by omega : row ≥ (s.cells.length : Int))]
    · intro row0 hrow0 hrlt
      refine ⟨?_, ?_, ?_⟩
      · intro hcol
        unfold GetCellValue
        rw [hg]
        dsimp only
        rw [if_neg (by omega : ¬ row ≥ (s.cells.length : Int))]
        rw [idx_nonneg s.cells 0 (by omega)]
        simp only [Int.toNat_zero]
        rw [hrow0]
        dsimp only
        rw [if_pos (by omega : col ≥ (row0.length : Int))]
      · intro hcol hr0 hrect
        have hrtn : row.toNat < s.cells.length := by omega
        obtain ⟨rowL, hrowL⟩ := get?_some_of_lt s.cells row.toNat hrtn
        have hmemL : rowL ∈ s.cells := List.get?_mem hrowL
        have hlenL : rowL.length = row0.length := hrect rowL hmemL
        have hc0 : 0 ≤ col := (getCellRowCol_col_range cellId row col hg).1
        have hctn : col.toNat < rowL.length := by omega
        obtain ⟨cell, hcell⟩ := get?_some_of_lt rowL col.toNat hctn
        have hcellAt : cellAt s row col = some cell := by
          unfold cellAt
          rw [idx_nonneg s.cells row hr0, hrowL]
          simp only [Option.some_bind]
          rw [idx_nonneg rowL col hc0, hcell]
        refine ⟨cell, hcellAt, ?_⟩
        unfold GetCellValue
        rw [hg]
        dsimp only
        rw [if_neg (by omega : ¬ row ≥ (s.cells.length : Int))]
        rw [idx_nonneg s.cells 0 (by omega)]
        simp only [Int.toNat_zero]
        rw [hrow0]
        dsimp only
        rw [if_neg (by omega : ¬ col ≥ (row0.length : Int))]
        rw [hcellAt]
      · intro hcol hrneg
        unfold GetCellValue
        rw [hg]
        dsimp only
        rw [if_neg (by omega : ¬ row ≥ (s.cells.length : Int))]
        rw [idx_nonneg s.cells 0 (by omega)]
        simp only [Int.toNat_zero]
        rw [hrow0]
        dsimp only
        rw [if_neg (by omega : ¬ col ≥ (row0.length : Int))]
        unfold cellAt
        rw [idx_neg s.cells row hrneg]
        rfl

/-- Witness for C7's amended statement: on a 3×3 sheet, "A9" resolves to row
8 and yields the row out-of-bounds error. -/
theorem C7_amended_witness :
    GetCellValue (CreateSpreadSheet 3 3) "A9" =
      GoRes.err "Row number out of bounds in cellId" :=
  ((C7_amended_get_classification (CreateSpreadSheet 3 3) "A9").2.2 8 0
    (by decide)).1 (by decide)

/-- Tail of the literal branch of `SetCellValue`: once the old edges are
removed (post-removal sheet `s1`) and the literal is stored, the final
dependent-recomputation loop cannot touch the target cell when no dependent
id resolves back to it, so the stored literal survives and `GetCellValue`
reads it back. -/
theorem setLiteral_tail (s s1 s4 : SpreadSheet) (cellId : String)
    (row col n : Int) (cell0 cell1 : Cell)
    (hrc : getCellRowCol cellId = some (row, col, none))
    (hcell : cellAt s row col = some cell0)
    (hcell1 : cellAt s1 row col = some cell1)
    (hrect : ∀ rowL ∈ s.cells, ∀ rowM ∈ s.cells, rowL.length = rowM.length)
    (hshape1 : shape s1 = shape s)
    (halias1 : ∀ cid ∈ cell1.dependentCells,
      getCellRowCol cid ≠ some (row, col, none))
    (hfold : List.foldlM (fun sh cid => computeCellValue sh cid)
        (modifyCell s1 row col (fun c => Cell.mk c.dependentCells n none))
        cell1.dependentCells = some s4) :
    GetCellValue s4 cellId = GoRes.ok n
    ∧ ∃ cellF, cellAt s4 row col = some cellF ∧ cellF.value = n
        ∧ cellF.formula = none := by
  obtain ⟨hshape4, hcell4⟩ :=
    recompute_fold_preserves row col cell1.dependentCells _ s4 halias1 hfold
  rw [cellAt_modify_self s1 row col _ cell1 hcell1] at hcell4
  have hshape : shape s4 = shape s := by
    rw [hshape4, modifyCell_shape, hshape1]
  obtain ⟨hr0, hc0, hrtn, rowL, hrowL, hctn, hgetL⟩ :=
    cellAt_bounds s row col cell0 hcell
  have hlen4 : s4.cells.length = s.cells.length := shape_cells_length s4 s hshape
  constructor
  · unfold GetCellValue
    rw [hrc]
    dsimp only
    rw [if_neg (by omega : ¬ row ≥ (s4.cells.length : Int))]
    have h0lt : 0 < s4.cells.length := by omega
    obtain ⟨row0, hrow0⟩ := get?_some_of_lt s4.cells 0 h0lt
    rw [idx_nonneg s4.cells 0 (by omega)]
    simp only [Int.toNat_zero]
    rw [hrow0]
    dsimp only
    have hml := shape_row_length s4 s hshape 0
    have h0lt2 : 0 < s.cells.length := by omega
    obtain ⟨row00, hrow00⟩ := get?_some_of_lt s.cells 0 h0lt2
    rw [hrow0, hrow00] at hml
    simp only [Option.map_some'] at hml
    injection hml with hml
    have heq : row00.length = rowL.length :=
      hrect row00 (List.get?_mem hrow00) rowL (List.get?_mem hrowL)
    rw [if_neg (by omega : ¬ col ≥ (row0.length : Int))]
    rw [hcell4]
  · exact ⟨Cell.mk cell1.dependentCells n none, hcell4, rfl, rfl⟩

/-- Claim C10, amended: for an in-bounds cell id and a value accepted by
`strconv.Atoi` as n, `SetCellValue` stores n and clears the formula; the
immediately following `GetCellValue` returns n provided no entry of the
cell's dependents map is an alias resolving back to the cell itself.  (With
such an alias — e.g. "A01" for "A1" — the final recomputation loop resets the
freshly stored literal to 0, which is the counterexample's scenario.) -/
theorem C10_amended_literal_roundtrip (s s4 : SpreadSheet) (cellId value : String)
    (row col n : Int) (cell0 : Cell)
    (hrc : getCellRowCol cellId = some (row, col, none))
    (hn : go_atoi value = some n)
    (hcell : cellAt s row col = some cell0)
    (hrect : ∀ rowL ∈ s.cells, ∀ rowM ∈ s.cells, rowL.length = rowM.length)
    (halias : ∀ cid ∈ cell0.dependentCells,
      getCellRowCol cid ≠ some (row, col, none))
    (hok : SetCellValue s cellId value = SetRes.ok s4) :
    GetCellValue s4 cellId = GoRes.ok n
    ∧ ∃ cellF, cellAt s4 row col = some cellF ∧ cellF.value = n
        ∧ cellF.formula = none := by
  unfold SetCellValue at hok
  rw [hrc] at hok
  dsimp only at hok
  have hws := go_atoi_not_whitespace value n hn
  rw [hws] at hok
  simp only [Bool.false_eq_true, if_false] at hok
  rw [hcell] at hok
  dsimp only at hok
  cases hf : cell0.formula with
  | none =>
    rw [hf] at hok
    dsimp only at hok
    rw [hn] at hok
    dsimp only at hok
    rw [cellAt_modify_self s row col _ cell0 hcell] at hok
    dsimp only at hok
    rw [cellAt_modify_self s row col _ cell0 hcell] at hok
    dsimp only at hok
    rcases hfold : List.foldlM (fun sh cid => computeCellValue sh cid)
        (modifyCell s row col (fun c => Cell.mk c.dependentCells n none))
        cell0.dependentCells with _ | s5
    · rw [hfold] at hok
      exact absurd hok (by simp)
    · rw [hfold] at hok
      dsimp only at hok
      injection hok with hok4
      subst hok4
      exact setLiteral_tail s s _ cellId row col n cell0 cell0 hrc hcell hcell
        hrect rfl halias hfold
  | some f =>
    rw [hf] at hok
    dsimp only at hok
    rcases hdel : deleteDependees s cellId f with _ | s1
    · rw [hdel] at hok
      exact absurd hok (by simp)
    · rw [hdel] at hok
      dsimp only at hok
      obtain ⟨hshape1, hdeps1⟩ := deleteDependees_effect s s1 cellId f row col hdel
      obtain ⟨cell1, hcell1⟩ := cellAt_some_of_shape s1 s hshape1 row col cell0 hcell
      have hsub : cell1.dependentCells ⊆ cell0.dependentCells := by
        have hx := hdeps1
        unfold depsAt at hx
        rw [hcell1, hcell] at hx
        exact hx
      have halias1 : ∀ cid ∈ cell1.dependentCells,
          getCellRowCol cid ≠ some (row, col, none) :=
        fun cid hm => halias cid (hsub hm)
      rw [hn] at hok
      dsimp only at hok
      rw [cellAt_modify_self s1 row col _ cell1 hcell1] at hok
      dsimp only at hok
      rw [cellAt_modify_self s1 row col _ cell1 hcell1] at hok
      dsimp only at hok
      rcases hfold : List.foldlM (fun sh cid => computeCellValue sh cid)
          (modifyCell s1 row col (fun c => Cell.mk c.dependentCells n none))
          cell1.dependentCells with _ | s5
      · rw [hfold] at hok
        exact absurd hok (by simp)
      · rw [hfold] at hok
        dsimp only at hok
        injection hok with hok4
        subst hok4
        exact setLiteral_tail s s1 _ cellId row col n cell0 cell1 hrc hcell hcell1
          hrect hshape1 halias1 hfold

/-- Witness for C10's amended statement: on a fresh 2×2 sheet (the target's
dependents map is empty, so the no-alias proviso holds vacuously),
`Set("A1","5")` stores 5 and the immediate read returns 5. -/
theorem C10_amended_witness :
    GetCellValue (SpreadSheet.mk [[Cell.mk [] 5 none, Cell.mk [] 0 none],
      [Cell.mk [] 0 none, Cell.mk [] 0 none]]) "A1" = GoRes.ok 5
    ∧ SetCellValue (CreateSpreadSheet 2 2) "A1" "5" =
      SetRes.ok (SpreadSheet.mk [[Cell.mk [] 5 none, Cell.mk [] 0 none],
        [Cell.mk [] 0 none, Cell.mk [] 0 none]]) :=
  ⟨(C10_amended_literal_roundtrip (CreateSpreadSheet 2 2)
      (SpreadSheet.mk [[Cell.mk [] 5 none, Cell.mk [] 0 none],
        [Cell.mk [] 0 none, Cell.mk [] 0 none]])
      "A1" "5" 0 0 5 (Cell.mk [] 0 none)
      (by decide) (by decide) (by decide) (by decide) (by decide) (by decide)).1,
   by decide⟩
